import Mathlib

/-!
Verification of the motop rendering/polling core against its source.

The repository ships two revisions of most modules: an older capitalised set
(`Server.py`, `Block.py`, `QueryScreen.py`) and the final lowercase set
(`server.py`, `console.py`, `queryscreen.py`).  Both are embedded below where a
claim cites both.

Python's `/` produces floats; every division in the embedded code has the form
`a / b` with integers `a` and a positive integer `b`, immediately consumed by
`round`, `int` or a comparison, so it is modelled exactly as the integer ratio
`a / b` via the helpers `pyRoundRatio` and `pyTruncRatio` below (the float
results are exact or the claims only concern sign / zero tests / renderings of
values where the float value is exact).
-/

/-- Python 3 `round(a / b)` for integers `a`, `b` with `0 < b`: round half to
even (banker's rounding).  `a.fdiv b` is the floor of the true quotient and
`r = a - fl * b` its remainder, so `2 * r` against `b` compares the fractional
part against one half. -/
def pyRoundRatio (a b : Int) : Int :=
  let fl := a.fdiv b
  let r := a - fl * b
  if 2 * r < b then fl
  else if b < 2 * r then fl + 1
  else if fl % 2 = 0 then fl else fl + 1

/-- Python `int(a / b)` for integers `a`, `b` with `0 < b`: truncation of the
true quotient toward zero (as performed by `Value(...)` in `Server.py` and
`int(value)` in `console.py`). -/
def pyTruncRatio (a b : Int) : Int :=
  if 0 ≤ a then a.fdiv b else -((-a).fdiv b)

/-- Embeds `Value.__str__` from `src/libmotop/Server.py` (old revision), the
human-readable renderer of a big integer: strictly-greater threshold tests
against 10^12, 10^9, 10^6, 10^3 and `str(int(round(self / 10**k))) + suffix`,
falling back to `int.__str__`. -/
def serverValueStr (v : Int) : String :=
  if v > 10 ^ 12 then toString (pyRoundRatio v (10 ^ 12)) ++ "T"
  else if v > 10 ^ 9 then toString (pyRoundRatio v (10 ^ 9)) ++ "G"
  else if v > 10 ^ 6 then toString (pyRoundRatio v (10 ^ 6)) ++ "M"
  else if v > 10 ^ 3 then toString (pyRoundRatio v (10 ^ 3)) ++ "K"
  else toString v

/-- The suffix tuple `fixes` of `Block` in `src/libmotop/console.py` (final
revision). -/
def cellFixes : List String := ["k", "M", "G", "T", "P", "E", "Z", "Y"]

/-- The numeric loop of `Block.__cell` in `src/libmotop/console.py` after its
first iteration: the running `value` is an integer produced by `round`; the
loop returns `str(int(value)) + fix` once `value < 10000`, otherwise divides by
1000 and rounds; when the suffixes run out Python falls through to
`str(value)` with no suffix. -/
def cellNumGo : List String → Int → String
  | [], v => toString v
  | f :: rest, v =>
      if v < 10000 then toString v ++ f
      else cellNumGo rest (pyRoundRatio v 1000)

/-- Embeds the numeric branch of `Block.__cell` from `src/libmotop/console.py`
on an integer cell value: the first loop iteration uses the empty suffix on the
raw value, later iterations run on rounded integers via `cellNumGo`. -/
def cellNum (v : Int) : String :=
  if v < 10000 then toString v
  else cellNumGo cellFixes (pyRoundRatio v 1000)

/-- Python exceptions that the embedded code can raise or absorb. -/
inductive PyExc where
  | zeroDivisionError
  | attributeError
  | indexError
  | typeError
deriving DecidableEq

deriving instance DecidableEq for Except

/-- Lookup in the `self.__oldValues` dict of `Server` (old revision):
`self.__oldValues[name] if name in self.__oldValues else None`. -/
def lookupOldValue : List (String × Int) → String → Option Int
  | [], _ => none
  | (k, v) :: rest, name => if k = name then some v else lookupOldValue rest name

/-- The dict store `self.__oldValues[name] = value`: replace the first binding
of the key, or append a fresh one. -/
def setOldValue : List (String × Int) → String → Int → List (String × Int)
  | [], name, value => [(name, value)]
  | (k, v) :: rest, name, value =>
      if k = name then (k, value) :: rest
      else (k, v) :: setOldValue rest name value

/-- Embeds `Server.__statusChangePerSecond` from `src/libmotop/Server.py` (old
revision).  The timespan is the `datetime` difference computed in `status()`;
the code reads only its `seconds` and `microseconds` fields (both are
non-negative in Python's normalised `timedelta`, the `days` field is ignored),
so they are the two `Nat` arguments here.  The store `self.__oldValues[name] =
value` happens before the division, so the updated map is returned even when
the division raises.  `if oldValue:` is Python truthiness: a missing *or zero*
baseline yields the `return 0` branch.  `timespanSeconds` is
`seconds + microseconds/10^6`; the returned rate is
`Value((value - oldValue) / timespanSeconds)`, i.e. the quotient
`(value - oldValue) * 10^6 / (seconds * 10^6 + microseconds)` truncated toward
zero, and a zero timespan raises `ZeroDivisionError`. -/
def statusChangePerSecond (oldValues : List (String × Int)) (tsSeconds tsMicros : Nat)
    (name : String) (value : Int) : Except PyExc Int × List (String × Int) :=
  let newValues := setOldValue oldValues name value
  match lookupOldValue oldValues name with
  | none => (.ok 0, newValues)
  | some oldValue =>
      if oldValue = 0 then (.ok 0, newValues)
      else
        let den : Int := (tsSeconds : Int) * 1000000 + (tsMicros : Int)
        if den = 0 then (.error .zeroDivisionError, newValues)
        else (.ok (pyTruncRatio ((value - oldValue) * 1000000) den), newValues)

/-- Embeds the elapsed-seconds computation of `StatusBlock.reset` in
`src/libmotop/queryscreen.py` (final revision): `sec =
status.deepgetDiff(oldStatus, 'uptimeMillis') / 1000.0; if not sec: sec = 1`.
The argument is the integer `uptimeMillis` difference produced by
`deepgetDiff`. -/
def statusBlockSec (uptimeMillisDiff : Int) : ℚ :=
  let sec : ℚ := (uptimeMillisDiff : ℚ) / 1000
  if sec = 0 then 1 else sec

/-- The per-second rate a `StatusBlock` cell shows in the final revision:
`operations / sec` (and likewise `flushes / sec`, `page_faults / sec`), where
the numerator is an integer counter difference from `deepgetDiff`. -/
def statusBlockRate (opsDiff uptimeMillisDiff : Int) : ℚ :=
  (opsDiff : ℚ) / statusBlockSec uptimeMillisDiff

/-- A heterogeneous table cell as fed to `Block.__cell` in
`src/libmotop/console.py`: a Python list, a number (integer-valued, see the
module comment), `None`, or anything else rendered via `str` (servers, opids,
namespaces, query objects all reach `__cell` as their string forms). -/
inductive CellVal where
  | num (v : Int)
  | str (s : String)
  | null
  | list (cs : List CellVal)

mutual

/-- Embeds `Block.__cell` from `src/libmotop/console.py`: lists join their
rendered members with `' / '`, numbers go through the human-readable loop,
`None` renders as the empty string, anything else as its `str`. -/
def cellStr : CellVal → String
  | .list cs => String.intercalate " / " (cellStrList cs)
  | .num v => cellNum v
  | .str s => s
  | .null => ""

/-- Renders each member of a Python list cell, in order. -/
def cellStrList : List CellVal → List String
  | [] => []
  | c :: cs => cellStr c :: cellStrList cs

end

/-- Python `s.ljust(w)` on the character list of `s`: pad on the right with
spaces up to width `w` (no-op when `s` is already at least `w` long). -/
def ljust (l : List Char) (w : Nat) : List Char :=
  l ++ List.replicate (w - l.length) ' '

/-- Embeds the column loop of `Block.__printLine` from
`src/libmotop/console.py` (identical in `Block.py`).  Arguments are the
remaining column headers, the remaining stored column widths, the remaining
cells of the row and the remaining width budget `left` (an `int` that can go
negative).  It returns the emitted text of each printed column
(`cell.ljust(width)[:leftWidth]` — at emission time `left` is at least the
header length, hence non-negative) and the final stored widths, including the
ratchet `widths[index] = max(len(cell) + 2, widths[index])` applied to every
cell that is not the last of the row.  The two mismatched-length fallbacks are
unreachable under `Block.print`'s assertion `len(line) <=
len(self.__columnHeaders)` (widths always have the headers' length). -/
def printLineGo : List String → List Nat → List CellVal → Int →
    List (List Char) × List Nat
  | _, ws, [], _ => ([], ws)
  | h :: hs, w :: ws, c :: cs, left =>
      if left < (h.length : Int) then ([], w :: ws)
      else
        let cell := (cellStr c).data
        let w2 := if cs.isEmpty then w else max (cell.length + 2) w
        let piece := (ljust cell w2).take left.toNat
        let rest := printLineGo hs ws cs (left - (w2 : Int))
        (piece :: rest.1, w2 :: rest.2)
  | [], ws, _ :: _, _ => ([], ws)
  | _ :: _, [], _ :: _, _ => ([], [])

/-- The mutable state of a `Block`: fixed column headers, the ratcheting
per-column widths (initialised to 6 each by `__init__`), and the current rows
from `reset`. -/
structure BlockState where
  headers : List String
  widths : List Nat
  lines : List (List CellVal)

/-- One emitted line of `Block.__printLine`: the concatenation of its printed
column pieces (the trailing newline and the ANSI bold escapes around the
header row carry no width and are not modelled). -/
def printLine (hs : List String) (ws : List Nat) (row : List CellVal) (left : Int) :
    List Char :=
  (printLineGo hs ws row left).1.flatten

/-- The data-row loop of `Block.print`: `for line in lines: if height <= 1:
break; height -= 1; printLine(line, width)`, threading the width ratchet from
row to row. -/
def blockPrintGo (hs : List String) : List Nat → List (List CellVal) → Nat → Int →
    List (List Char) × List Nat
  | ws, [], _, _ => ([], ws)
  | ws, l :: ls, height, width =>
      if height ≤ 1 then ([], ws)
      else
        let r := printLineGo hs ws l width
        let rest := blockPrintGo hs r.2 ls (height - 1) width
        (r.1.flatten :: rest.1, rest.2)

/-- Embeds `Block.print` from `src/libmotop/console.py` (identical in
`Block.py`): assert `height > 1` (theorems below carry it as a hypothesis),
print the header row (the headers go through `__cell` like any string cells),
decrement the height, then print data rows while height remains.  Returns the
emitted lines and the final column widths. -/
def blockPrint (b : BlockState) (height : Nat) (width : Int) :
    List (List Char) × List Nat :=
  let hr := printLineGo b.headers b.widths (b.headers.map CellVal.str) width
  let rest := blockPrintGo b.headers hr.2 b.lines (height - 1) width
  (hr.1.flatten :: rest.1, rest.2)

/-- The rendered header row of a block at a given width budget. -/
def headerLine (b : BlockState) (width : Int) : List Char :=
  printLine b.headers b.widths (b.headers.map CellVal.str) width

/-- One invocation of the wrapped driver procedure inside `Server.__execute`
(`src/libmotop/server.py`, final revision): it returns a value, or raises one
of the two conditions the external Datasource can raise (`AutoReconnect` — a
transient connectivity failure — or `OperationFailure`), each carrying an
error payload. -/
inductive CallOutcome where
  | ok (v : Nat)
  | autoReconnect (e : Nat)
  | opFailure (e : Nat)
deriving DecidableEq

/-- The `for tryCount in range(10)` loop of `Server.__execute` from
`src/libmotop/server.py`: `proc i` is what the wrapped procedure does on its
`i`-th invocation, the second argument is the remaining loop iterations and
the third the current `self.__lastError`.  Returns the result (`None` when the
loop falls through or breaks), the final last error, and the number of
invocations actually made.  The `time.sleep(0.1)` between transient retries is
real-time behaviour and is not modelled. -/
def serverExecuteGo (proc : Nat → CallOutcome) :
    Nat → Nat → Option Nat → Option Nat × Option Nat × Nat
  | _, 0, lastErr => (none, lastErr, 0)
  | i, n + 1, lastErr =>
      match proc i with
      | .ok v => (some v, lastErr, 1)
      | .autoReconnect e =>
          let r := serverExecuteGo proc (i + 1) n (some e)
          (r.1, r.2.1, r.2.2 + 1)
      | .opFailure e => (none, some e, 1)

/-- Embeds `Server.__execute` from `src/libmotop/server.py`: up to 10 attempts
starting with no recorded error. -/
def serverExecute (proc : Nat → CallOutcome) : Option Nat × Option Nat × Nat :=
  serverExecuteGo proc 0 10 none

/-- The optional `Query` cell of an operation row in
`src/libmotop/queryscreen.py`: `OperationBlock.reset` appends either the
`$msg` string or a `Query` object built from `op['query']`. -/
inductive QueryCell where
  | msg (s : String)
  | queryObj (q : String)
deriving DecidableEq

/-- One row of the operations table as assembled by `OperationBlock.reset` in
`src/libmotop/queryscreen.py` (final revision): cells 0-6 are always present
(`server`, `str(opid)`, `client`, `op`, `secs_running`, `locks`, `ns`), cell 7
(the query) only when `'query' in op`.  The server cell holds a `Server`
object whose `str` is its display name; it is modelled by that name. -/
structure OpLine where
  server : String
  opid : String
  client : String
  opType : String
  sec : Option Int
  locks : List String
  ns : Option String
  query : Option QueryCell
deriving DecidableEq

/-- The sort key of `OperationBlock.reset`: `line[4] or -1` — Python `or`
yields `-1` both for a `None` duration and for a zero duration (and for no
other value, since `0` is the only falsy `int`). -/
def sortKey (l : OpLine) : Int :=
  match l.sec with
  | none => -1
  | some v => if v = 0 then -1 else v

/-- The descending-by-key order used to model
`self.__lines.sort(key=sortKey, reverse=True)`. -/
def opGE (a b : OpLine) : Prop := sortKey b ≤ sortKey a

instance : DecidableRel opGE :=
  fun a b => inferInstanceAs (Decidable (sortKey b ≤ sortKey a))

instance : IsTotal OpLine opGE :=
  ⟨fun a b => le_total (sortKey b) (sortKey a)⟩

instance : IsTrans OpLine opGE :=
  ⟨fun _ _ _ hab hbc => le_trans hbc hab⟩

/-- Embeds the sort at the end of `OperationBlock.reset`: Python's `list.sort`
with `reverse=True` is a stable descending sort by the key, i.e. elements with
equal keys keep their input order; `List.insertionSort` with `opGE` inserts
every element after the earlier-inserted elements whose key is `≥` its own,
which is exactly that stable order. -/
def opSort (lines : List OpLine) : List OpLine := List.insertionSort opGE lines

/-- Embeds `OperationBlock.batchKill` from `src/libmotop/queryscreen.py`: scan
the rows top to bottom, break at the first row with `line[4] < second`, kill
(`server.killOperation(line[1])`) every row before that point.  Returns the
`(server, opid)` pairs killed, in order, and—because Python 3 raises
`TypeError` on `None < int`—the exception that aborts the scan when a row with
a `None` duration is compared before any row falls below the threshold (kills
already issued stay issued). -/
def batchKillGo : List OpLine → Int → List (String × String) × Option PyExc
  | [], _ => ([], none)
  | l :: rest, s =>
      match l.sec with
      | none => ([], some .typeError)
      | some v =>
          if v < s then ([], none)
          else
            let r := batchKillGo rest s
            ((l.server, l.opid) :: r.1, r.2)

/-- Embeds `OperationBlock.__findServer`: the first configured server whose
`str` equals the typed name, else Python `None`. -/
def findServerName : List String → String → Option String
  | [], _ => none
  | s :: rest, name => if s = name then some s else findServerName rest name

/-- Embeds `OperationBlock.__findLine`: the first stored row whose
`str(line[0])` and `str(line[1])` equal the typed server name and opid. -/
def findLine : List OpLine → String → String → Option OpLine
  | [], _, _ => none
  | l :: rest, sn, oid =>
      if l.server = sn ∧ l.opid = oid then some l else findLine rest sn oid

/-- Python truthiness of a nullable string cell: `None` and `''` are falsy. -/
def pyTruthyStr : Option String → Bool
  | none => false
  | some s => !s.isEmpty

/-- Embeds `OperationBlock.explainQuery` from `src/libmotop/queryscreen.py`:
`line = self.__findLine(...)`; the guard `line and len(line) > 6 and line[6]
and isinstance(line[7], Query)` returns `None` when the row is missing, when
the namespace cell is falsy, or when the query cell is a `$msg` string —
but indexing `line[7]` on a 7-cell row (an operation without a query) raises
`IndexError`.  On a `Query` row, `query.printExplain(line[0], line[6])` runs
the remote explain; `explainOk` abstracts whether that remote call returns
output (`printExplain` yields `False` on empty output, `True` otherwise). -/
def opExplain (explainOk : String → String → Bool) (lines : List OpLine)
    (serverName opid : String) : Except PyExc (Option Bool) :=
  match findLine lines serverName opid with
  | none => .ok none
  | some l =>
      if pyTruthyStr l.ns then
        match l.query with
        | none => .error .indexError
        | some (.msg _) => .ok none
        | some (.queryObj _) => .ok (some (explainOk l.server (l.ns.getD "")))
      else .ok none

/-- Embeds `OperationBlock.kill` from `src/libmotop/queryscreen.py`:
`server = self.__findServer(serverName); return server.killOperation(opid)`.
When no server matches, `server` is `None` and the attribute access raises
`AttributeError`.  `killOk` abstracts the exit status of the external
`killOperation` shell command. -/
def opKill (servers : List String) (killOk : String → String → Bool)
    (serverName opid : String) : Except PyExc Bool :=
  match findServerName servers serverName with
  | none => .error .attributeError
  | some s => .ok (killOk s opid)

/-- The user-input script consumed by one iteration of `QueryScreen.action`
(`src/libmotop/queryscreen.py`): the key from `checkButton(1)` (`None` when no
key arrived), the key `waitButton()` returns if the iteration pauses, the
values `askForInput('Server', 'Opid')` would return (possibly fewer than two —
the user may abort), the key `waitButton()` returns at the end of the
`'e'`/`'k'` branch, and the already-`int()`-parsed value
`askForInput('Sec')` would return (`none` for an aborted prompt, which Python
sees as an empty, falsy list). -/
structure TickInput where
  firstKey : Option Char
  pauseKey : Char
  ekInput : List String
  ekKey : Char
  kInput : Option Int
deriving DecidableEq

/-- The externally visible outcome of one iteration of `QueryScreen.action`:
the single-kill attempts, the one-line failure messages printed, the
`(server, opid)` pairs batch-killed (manual `'K'` plus auto-kill), the value
of `button` when the iteration ends (the `while button != 'q'` guard), and
whether the reconnect branch of this iteration fires. -/
structure TickOutcome where
  killedSingle : List (String × String)
  messages : List String
  batchKilled : List (String × String)
  finalKey : Option Char
  reconnectBranch : Bool
deriving DecidableEq

/-- The body of one `QueryScreen.action` iteration after the pause handling
(final revision), with `button` already holding the current key.  `counter` is
the loop counter after this iteration's `counter += 1`.  The block resets and
the screen refresh have no bearing on the modelled outcome and are not
represented; uncaught Python exceptions propagate as `.error`. -/
def tickRest (servers : List String) (lines : List OpLine)
    (explainOk killOk : String → String → Bool) (autoKillSeconds : Option Int)
    (counter : Nat) (button : Option Char) (ekInput : List String) (ekKey : Char)
    (kInput : Option Int) : Except PyExc TickOutcome :=
  let ek : Except PyExc (Option Char × List (String × String) × List String) :=
    if button = some 'e' ∨ button = some 'k' then
      if ekInput ≠ [] then
        if ekInput.length = 2 then
          let sn := ekInput.getD 0 ""
          let oid := ekInput.getD 1 ""
          if button = some 'e' then
            match opExplain explainOk lines sn oid with
            | .error e => .error e
            | .ok r =>
                .ok (some ekKey, ([] : List (String × String)),
                  if r = some true then [] else ["Explain failed. Try again."])
          else
            match opKill servers killOk sn oid with
            | .error e => .error e
            | .ok okRes =>
                .ok (some ekKey, [(sn, oid)],
                  if okRes then [] else ["Kill failed. Try again."])
        else .ok (some ekKey, [], [])
      else .ok (button, [], [])
    else .ok (button, [], [])
  match ek with
  | .error e => .error e
  | .ok (button2, killedSingle, msgs) =>
      let manual :=
        if button2 = some 'K' then
          match kInput with
          | some s => batchKillGo lines s
          | none => (([] : List (String × String)), (none : Option PyExc))
        else (([] : List (String × String)), (none : Option PyExc))
      match manual.2 with
      | some e => .error e
      | none =>
          let auto :=
            match autoKillSeconds with
            | some s => batchKillGo lines s
            | none => (([] : List (String × String)), (none : Option PyExc))
          match auto.2 with
          | some e => .error e
          | none =>
              .ok
                { killedSingle := killedSingle
                  messages := msgs
                  batchKilled := manual.1 ++ auto.1
                  finalKey := button2
                  reconnectBranch :=
                    button2 == some 'r' || button2 == some 'R' ||
                      counter % 20 == 0 }

/-- Embeds one iteration of the `QueryScreen.action` loop from
`src/libmotop/queryscreen.py`: `button = checkButton(1)`, then the pause
handling `if button == 'p': button = waitButton()`, then the single-operation,
batch-kill, auto-kill and reconnect branches via `tickRest`. -/
def tick (servers : List String) (lines : List OpLine)
    (explainOk killOk : String → String → Bool) (autoKillSeconds : Option Int)
    (counter : Nat) (inp : TickInput) : Except PyExc TickOutcome :=
  tickRest servers lines explainOk killOk autoKillSeconds counter
    (if inp.firstKey = some 'p' then some inp.pauseKey else inp.firstKey)
    inp.ekInput inp.ekKey inp.kInput

/-- A one-column demonstration block used by concrete instantiations. -/
def demoBlockA : BlockState :=
  { headers := ["A"], widths := [6], lines := [[.str "x"]] }

/-- A two-column demonstration block used by concrete instantiations. -/
def demoBlockSO : BlockState :=
  { headers := ["Server", "Opid"], widths := [6, 6],
    lines := [[.str "abc", .str "1"]] }

/-- The batch-kill scenario of the spec: operation rows sorted descending by
elapsed seconds 50, 30, 30, 10. -/
def opsScenario : List OpLine :=
  [ { server := "s", opid := "1", client := "c", opType := "query",
      sec := some 50, locks := [], ns := some "db.c", query := none },
    { server := "s", opid := "2", client := "c", opType := "query",
      sec := some 30, locks := [], ns := some "db.c", query := none },
    { server := "s", opid := "3", client := "c", opType := "query",
      sec := some 30, locks := [], ns := some "db.c", query := none },
    { server := "s", opid := "4", client := "c", opType := "query",
      sec := some 10, locks := [], ns := some "db.c", query := none } ]

/-- A row whose operation has no `secs_running` (a `None` duration). -/
def opNullSec : OpLine :=
  { server := "s", opid := "9", client := "c", opType := "cmd",
    sec := none, locks := [], ns := some "db.c", query := none }

/-- A row whose operation has been running for zero whole seconds. -/
def opZeroSec : OpLine :=
  { server := "s", opid := "8", client := "c", opType := "query",
    sec := some 0, locks := [], ns := some "db.c", query := none }

/-- A row whose operation has been running for five seconds. -/
def opPosSec : OpLine :=
  { server := "s", opid := "7", client := "c", opType := "query",
    sec := some 5, locks := [], ns := some "db.c", query := none }

/-- A row of server "alpha" with opid 42, used by concrete tick runs. -/
def opLine42 : OpLine :=
  { server := "alpha", opid := "42", client := "c", opType := "query",
    sec := some 7, locks := [], ns := some "db.c", query := none }

/-- Every emitted piece of a row fits the remaining width budget: the
concatenated columns of one `__printLine` call never exceed the width the call
started with. -/
theorem printLineGo_flatten_length :
    ∀ (row : List CellVal) (hs : List String) (ws : List Nat) (L : Int),
      ((printLineGo hs ws row L).1.flatten).length ≤ L.toNat := by
  intro row
  induction row with
  | nil => intro hs ws L; simp [printLineGo]
  | cons c cs ih =>
      intro hs ws L
      cases hs with
      | nil => simp [printLineGo]
      | cons h hs' =>
          cases ws with
          | nil => simp [printLineGo]
          | cons w ws' =>
              rw [printLineGo]
              by_cases hguard : L < (h.length : Int)
              · rw [if_pos hguard]; simp
              · rw [if_neg hguard]
                have hL : (0 : Int) ≤ L := le_trans (by positivity) (not_lt.mp hguard)
                simp only [List.flatten_cons, List.length_append, List.length_take]
                cases cs with
                | nil =>
                    simp only [printLineGo, List.flatten_nil, List.length_nil]
                    omega
                | cons c2 cs2 =>
                    have hw2 : (ljust (cellStr c).data
                        (max ((cellStr c).data.length + 2) w)).length =
                        max ((cellStr c).data.length + 2) w := by
                      simp [ljust, List.length_append, List.length_replicate]
                    simp only [List.isEmpty_cons, Bool.false_eq_true, if_false]
                    have hrest := ih hs' ws'
                      (L - (max ((cellStr c).data.length + 2) w : Nat))
                    rw [hw2]
                    omega

/-- The data-row loop prints `min (number of rows) (height - 1)` rows. -/
theorem blockPrintGo_length :
    ∀ (ls : List (List CellVal)) (hs : List String) (ws : List Nat)
      (h : Nat) (w : Int),
      (blockPrintGo hs ws ls h w).1.length = min ls.length (h - 1) := by
  intro ls
  induction ls with
  | nil => intro hs ws h w; simp [blockPrintGo]
  | cons l ls' ih =>
      intro hs ws h w
      rw [blockPrintGo]
      by_cases hh : h ≤ 1
      · rw [if_pos hh]
        simp
        omega
      · rw [if_neg hh]
        simp only [List.length_cons, ih]
        omega

/-- Every line emitted by the data-row loop fits the width budget. -/
theorem blockPrintGo_line_length :
    ∀ (ls : List (List CellVal)) (hs : List String) (ws : List Nat)
      (h : Nat) (w : Int),
      ∀ l ∈ (blockPrintGo hs ws ls h w).1, l.length ≤ w.toNat := by
  intro ls
  induction ls with
  | nil => intro hs ws h w l hl; simp [blockPrintGo] at hl
  | cons r ls' ih =>
      intro hs ws h w l hl
      rw [blockPrintGo] at hl
      by_cases hh : h ≤ 1
      · rw [if_pos hh] at hl; simp at hl
      · rw [if_neg hh] at hl
        simp only [List.mem_cons] at hl
        cases hl with
        | inl he => rw [he]; exact printLineGo_flatten_length r hs _ w
        | inr hm => exact ih hs _ (h - 1) w l hm

/-- Columns are dropped from the first one whose header no longer fits: the
emitted pieces are the first `k` columns, and when the row is cut
(`k < row.length`) the width remaining after the `k` printed columns --
the budget minus the (updated) stored widths they consumed -- is smaller
than the length of column `k`'s header. -/
theorem printLineGo_cut_whole :
    ∀ (row : List CellVal) (hs : List String) (ws : List Nat) (L : Int),
      row.length ≤ hs.length → hs.length = ws.length →
      ∃ k, (printLineGo hs ws row L).1.length = k ∧ k ≤ row.length
        ∧ (k < row.length →
            L - (((printLineGo hs ws row L).2.take k).sum : Int) <
              ((hs.getD k "").length : Int)) := by
  intro row
  induction row with
  | nil =>
      intro hs ws L _ _
      exact ⟨0, by simp [printLineGo], Nat.zero_le _,
        fun hlt => absurd hlt (by simp)⟩
  | cons c cs ih =>
      intro hs ws L hlen heq
      cases hs with
      | nil => simp at hlen
      | cons h hs' =>
          cases ws with
          | nil => simp at heq
          | cons w ws' =>
              rw [printLineGo]
              by_cases hguard : L < (h.length : Int)
              · rw [if_pos hguard]
                refine ⟨0, by simp, Nat.zero_le _, fun _ => ?_⟩
                simpa using hguard
              · rw [if_neg hguard]
                simp only
                obtain ⟨k', hk1, hk2, hk3⟩ := ih hs' ws'
                  (L - ((if cs.isEmpty then w
                    else max ((cellStr c).data.length + 2) w) : Nat))
                  (by simpa using hlen) (by simpa using heq)
                refine ⟨k' + 1, by simpa using hk1, by simpa using hk2,
                  fun hlt => ?_⟩
                have := hk3 (by simp at hlt; omega)
                simp only [List.take_succ_cons, List.sum_cons,
                  List.getD_cons_succ]
                push_cast at this ⊢
                omega

/-- C4, counterexample.  A column may be emitted partially: with headers
`Server`/`Opid`, stored widths 6/6, and width budget 8, the 12-character
server cell is emitted truncated to its first 8 characters (the header check
`8 >= len('Server')` passes, then `cell.ljust(14)[:8]` slices mid-cell), so a
partial column is emitted before the scan breaks on `Opid`. -/
theorem printLine_claim_false :
    printLineGo ["Server", "Opid"] [6, 6] [.str "abcdefghijkl", .str "42"] 8 =
      ([("abcdefgh").data], [14, 6])
  ∧ cellStr (.str "abcdefghijkl") = "abcdefghijkl"
  ∧ ("abcdefgh").data ≠ ("abcdefghijkl").data
  ∧ ("abcdefgh").data ≠ ljust ("abcdefghijkl").data 14 := by decide

/-- C4, amended.  No emitted line exceeds the width budget, and the
header-fit rule cuts whole trailing column groups: scanning left to right, the
first column whose header length exceeds the remaining width is dropped with
every column after it.  However the content of the last *emitted* column may
itself be truncated to the remaining width (`cell.ljust(width)[:leftWidth]`),
so an individual cell can still be cut mid-column. -/
theorem printLine_width_amended :
    (∀ (b : BlockState) (h : Nat) (w : Int),
        ∀ l ∈ (blockPrint b h w).1, l.length ≤ w.toNat)
  ∧ (∀ (row : List CellVal) (hs : List String) (ws : List Nat) (L : Int),
        row.length ≤ hs.length → hs.length = ws.length →
        ∃ k, (printLineGo hs ws row L).1.length = k ∧ k ≤ row.length
          ∧ (k < row.length →
              L - (((printLineGo hs ws row L).2.take k).sum : Int) <
                ((hs.getD k "").length : Int))) := by
  constructor
  · intro b h w l hl
    rw [blockPrint] at hl
    simp only [List.mem_cons] at hl
    cases hl with
    | inl he => rw [he]; exact printLineGo_flatten_length _ _ _ w
    | inr hm => exact blockPrintGo_line_length _ _ _ _ w l hm
  · exact printLineGo_cut_whole

/-- C4, witness: the width bound and the whole-column cut rule at a concrete
block and row. -/
theorem printLine_width_amended_witness :
    (∀ l ∈ (blockPrint demoBlockSO 3 10).1, l.length ≤ (10 : Int).toNat)
  ∧ (∃ k, (printLineGo ["Server", "Opid"] [6, 6]
        [.str "abcdefghijkl", .str "42"] 8).1.length = k
      ∧ k ≤ ([CellVal.str "abcdefghijkl", .str "42"] : List CellVal).length
      ∧ (k < ([CellVal.str "abcdefghijkl", .str "42"] : List CellVal).length →
          8 - (((printLineGo ["Server", "Opid"] [6, 6]
              [.str "abcdefghijkl", .str "42"] 8).2.take k).sum : Int) <
            ((["Server", "Opid"].getD k "").length : Int))) :=
  ⟨printLine_width_amended.1 demoBlockSO 3 10,
   printLine_width_amended.2 [.str "abcdefghijkl", .str "42"]
      ["Server", "Opid"] [6, 6] 8 (by decide) (by decide)⟩

/-- C3: the height budget of `Block.print`.  The header row is always emitted
first; the number of data rows is `min (row count) (height - 2)` — at most
`height - 1`, with the loop in fact also reserving one extra line — and at
`height = 2` the output is exactly the header row. -/
theorem blockPrint_height_budget :
    ∀ (b : BlockState) (h : Nat) (w : Int), 1 < h →
      (blockPrint b h w).1.head? = some (headerLine b w)
    ∧ (blockPrint b h w).1.length = 1 + min b.lines.length (h - 2)
    ∧ (blockPrint b h w).1.length - 1 ≤ h - 1
    ∧ (h = 2 → (blockPrint b h w).1 = [headerLine b w]) := by
  intro b h w _
  have hlen : (blockPrint b h w).1.length = 1 + min b.lines.length (h - 2) := by
    rw [blockPrint]
    simp only [List.length_cons, blockPrintGo_length]
    omega
  refine ⟨rfl, hlen, by omega, fun h2 => ?_⟩
  subst h2
  rw [blockPrint]
  have : (blockPrintGo b.headers
      (printLineGo b.headers b.widths (b.headers.map CellVal.str) w).2
      b.lines (2 - 1) w).1 = [] := by
    rw [← List.length_eq_zero, blockPrintGo_length]
    omega
  rw [this]
  rfl

/-- C3, witness: a one-column block with one data row, rendered at heights 2
and 3. -/
theorem blockPrint_height_budget_witness :
    ((blockPrint demoBlockA 2 20).1 = [headerLine demoBlockA 20])
  ∧ (blockPrint demoBlockA 3 20).1.length = 1 + min demoBlockA.lines.length (3 - 2) :=
  ⟨(blockPrint_height_budget demoBlockA 2 20 (by decide)).2.2.2 rfl,
   (blockPrint_height_budget demoBlockA 3 20 (by decide)).2.1⟩

/-- C8, counterexample.  The stored column width is not capped by the width
remaining at render time: a 16-character cell in the first column ratchets the
stored width to 18 even though only 10 columns of width remain. -/
theorem columnWidths_claim_false :
    (printLineGo ["Server", "Opid"] [6, 6]
        [.str "longservername01", .str "7"] 10).2 = [18, 6]
  ∧ ¬(18 ≤ 10) := by decide

/-- Pointwise `≤` on width lists is transitive. -/
theorem forall2_le_trans :
    ∀ (a b c : List Nat), List.Forall₂ (· ≤ ·) a b → List.Forall₂ (· ≤ ·) b c →
      List.Forall₂ (· ≤ ·) a c := by
  intro a
  induction a with
  | nil =>
      intro b c h1 h2
      cases h1
      cases h2
      exact .nil
  | cons x a' ih =>
      intro b c h1 h2
      cases h1 with
      | cons hxy h1' =>
          cases h2 with
          | cons hyz h2' => exact .cons (le_trans hxy hyz) (ih _ _ h1' h2')

/-- One `__printLine` call never shrinks any stored column width. -/
theorem printLineGo_widths_mono :
    ∀ (row : List CellVal) (hs : List String) (ws : List Nat) (L : Int),
      List.Forall₂ (· ≤ ·) ws (printLineGo hs ws row L).2 := by
  intro row
  induction row with
  | nil =>
      intro hs ws L
      simp only [printLineGo]
      exact List.forall₂_same.mpr fun x _ => le_refl x
  | cons c cs ih =>
      intro hs ws L
      cases hs with
      | nil =>
          simp only [printLineGo]
          exact List.forall₂_same.mpr fun x _ => le_refl x
      | cons h hs' =>
          cases ws with
          | nil => simp only [printLineGo]; exact .nil
          | cons w ws' =>
              rw [printLineGo]
              by_cases hguard : L < (h.length : Int)
              · rw [if_pos hguard]
                exact List.forall₂_same.mpr fun x _ => le_refl x
              · rw [if_neg hguard]
                refine .cons ?_ (ih hs' ws' _)
                by_cases hcs : cs.isEmpty
                · simp [hcs]
                · simp [hcs]

/-- The data-row loop never shrinks any stored column width. -/
theorem blockPrintGo_widths_mono :
    ∀ (ls : List (List CellVal)) (hs : List String) (ws : List Nat)
      (h : Nat) (w : Int),
      List.Forall₂ (· ≤ ·) ws (blockPrintGo hs ws ls h w).2 := by
  intro ls
  induction ls with
  | nil =>
      intro hs ws h w
      simp only [blockPrintGo]
      exact List.forall₂_same.mpr fun x _ => le_refl x
  | cons r ls' ih =>
      intro hs ws h w
      rw [blockPrintGo]
      by_cases hh : h ≤ 1
      · rw [if_pos hh]
        exact List.forall₂_same.mpr fun x _ => le_refl x
      · rw [if_neg hh]
        exact forall2_le_trans _ _ _ (printLineGo_widths_mono r hs ws w)
          (ih hs _ (h - 1) w)

/-- C8, amended.  Across any `__printLine` call and any full `Block.print`
call, every stored column width is non-decreasing (it ratchets to
`max(len(cell) + 2, currentWidth)` on every non-last cell), but it is *not*
capped by the remaining width — only the emitted text is cut to the remaining
width.  The third conjunct shows the ratchet concretely: an 8-character cell
grows its column from 6 to 10, while the last column stays untouched. -/
theorem columnWidths_ratchet_amended :
    (∀ (row : List CellVal) (hs : List String) (ws : List Nat) (L : Int),
        List.Forall₂ (· ≤ ·) ws (printLineGo hs ws row L).2)
  ∧ (∀ (b : BlockState) (h : Nat) (w : Int),
        List.Forall₂ (· ≤ ·) b.widths (blockPrint b h w).2)
  ∧ (printLineGo ["A", "B"] [6, 6] [.str "abcdefgh", .str "x"] 100).2 = [10, 6] := by
  refine ⟨printLineGo_widths_mono, fun b h w => ?_, by decide⟩
  rw [blockPrint]
  exact forall2_le_trans _ _ _
    (printLineGo_widths_mono (b.headers.map CellVal.str) b.headers b.widths w)
    (blockPrintGo_widths_mono b.lines b.headers _ (h - 1) w)

/-- C1, counterexample.  The rate computation is not total and not
sign-safe: with a non-zero stored baseline and a zero timespan,
`Server.__statusChangePerSecond` (old revision) raises `ZeroDivisionError`
instead of reporting the rate unavailable; with a decreased counter and two
elapsed seconds it returns the negative rate `-3`; and in the final revision a
zero `uptimeMillis` difference is silently replaced by one second, so the rate
is the plain number `opsDiff / 1` — never a distinguished "unavailable". -/
theorem statusRate_claim_false :
    (statusChangePerSecond [("qPS", 5)] 0 0 "qPS" 7).1 = .error .zeroDivisionError
  ∧ (statusChangePerSecond [("bytesIn", 10)] 2 0 "bytesIn" 4).1 = .ok (-3)
  ∧ (-3 : Int) < 0
  ∧ statusBlockRate (-3) 0 = ((-3 : Int) : ℚ) := by
  refine ⟨by decide, by decide, by decide, ?_⟩
  simp [statusBlockRate, statusBlockSec]

/-- C1, amended.  A fresh key (or a stored baseline of 0, which Python
truthiness treats the same) yields 0, not a distinguished "unknown", and the
new value is always stored; with a non-zero baseline and a non-zero timespan
the rate is the truncated quotient `(v2 - v1) / (t2 - t1)` (negative when the
counter decreased); with a zero timespan the old revision raises
`ZeroDivisionError`, and the final revision substitutes one second for a zero
elapsed time, returning `opsDiff / 1` rather than "unavailable". -/
theorem statusRate_amended :
    (∀ m s u n v, lookupOldValue m n = none →
        (statusChangePerSecond m s u n v).1 = .ok 0
      ∧ (statusChangePerSecond m s u n v).2 = setOldValue m n v)
  ∧ (∀ m s u n v old, lookupOldValue m n = some old → old ≠ 0 → (s, u) ≠ (0, 0) →
        (statusChangePerSecond m s u n v).1 =
          .ok (pyTruncRatio ((v - old) * 1000000) ((s : Int) * 1000000 + (u : Int))))
  ∧ (∀ m n v old, lookupOldValue m n = some old → old ≠ 0 →
        (statusChangePerSecond m 0 0 n v).1 = .error .zeroDivisionError)
  ∧ (∀ ops : Int, statusBlockRate ops 0 = (ops : ℚ)) := by
  refine ⟨?_, ?_, ?_, ?_⟩
  · intro m s u n v h
    simp [statusChangePerSecond, h]
  · intro m s u n v old h hold hsu
    have hden : ((s : Int) * 1000000 + (u : Int)) ≠ 0 := by
      have : ¬(s = 0 ∧ u = 0) := by
        intro hc
        exact hsu (by rw [hc.1, hc.2])
      omega
    simp [statusChangePerSecond, h, hold, hden]
  · intro m n v old h hold
    simp [statusChangePerSecond, h, hold]
  · intro ops
    simp [statusBlockRate, statusBlockSec]

/-- C1, witness for the amended theorem at concrete inputs: a fresh key, a
half-second timespan (rate `(8 - 5) / 1.5` truncated to 2), a zero timespan,
and a zero uptime difference. -/
theorem statusRate_amended_witness :
    (statusChangePerSecond [] 0 0 "qPS" 7).1 = .ok 0
  ∧ (statusChangePerSecond [("qPS", 5)] 1 500000 "qPS" 8).1 = .ok 2
  ∧ (statusChangePerSecond [("qPS", 5)] 0 0 "qPS" 8).1 = .error .zeroDivisionError
  ∧ statusBlockRate 5 0 = ((5 : Int) : ℚ) := by
  refine ⟨(statusRate_amended.1 [] 0 0 "qPS" 7 rfl).1, ?_,
    statusRate_amended.2.2.1 [("qPS", 5)] "qPS" 8 5 rfl (by decide),
    statusRate_amended.2.2.2 5⟩
  rw [statusRate_amended.2.1 [("qPS", 5)] 1 500000 "qPS" 8 5 rfl (by decide)
    (by decide)]
  decide

/-- C2, counterexample.  Neither formatter renders 1000 as "1K": the old
revision's `Value.__str__` tests `self > 10 ** 3` strictly, the final
revision's `Block.__cell` only scales once the value reaches 10000 (and then
uses a lowercase "k"), so `format(1000)` is "1000" in both and
`format(1500000)` is "1500k" in the final revision, not "2M". -/
theorem humanScale_claim_false :
    serverValueStr 1000 = "1000" ∧ serverValueStr 1000 ≠ "1K"
  ∧ cellNum 1000 = "1000" ∧ cellNum 1000 ≠ "1K"
  ∧ cellNum 1500000 = "1500k" ∧ cellNum 1500000 ≠ "2M" := by decide

/-- C2, amended.  Old revision (`Value.__str__`): values up to and including
1000 render as the plain integer; above each strict power-of-ten threshold the
value is divided by 10^12 / 10^9 / 10^6 / 10^3, rounded half-to-even, and
suffixed with T / G / M / K (so 1001 is "1K", 1500000 is "2M").  Final
revision (`Block.__cell`): values below 10000 render as the plain integer;
larger values are repeatedly divided by 1000 with half-to-even rounding
through the suffixes k, M, G, T, P, E, Z, Y (so 1000 is "1000", 10000 is
"10k", 1500000 is "1500k"). -/
theorem humanScale_amended :
    (∀ v : Int, 0 ≤ v → v ≤ 1000 → serverValueStr v = toString v)
  ∧ serverValueStr 999 = "999"
  ∧ serverValueStr 1000 = "1000"
  ∧ serverValueStr 1001 = "1K"
  ∧ serverValueStr 1500000 = "2M"
  ∧ (∀ v : Int, v < 10000 → cellNum v = toString v)
  ∧ cellNum 999 = "999"
  ∧ cellNum 1000 = "1000"
  ∧ cellNum 10000 = "10k"
  ∧ cellNum 1500000 = "1500k" := by
  refine ⟨?_, by decide, by decide, by decide, by decide, ?_, by decide,
    by decide, by decide, by decide⟩
  · intro v _ h1
    have e12 : (10 : Int) ^ 12 = 1000000000000 := by norm_num
    have e9 : (10 : Int) ^ 9 = 1000000000 := by norm_num
    have e6 : (10 : Int) ^ 6 = 1000000 := by norm_num
    have e3 : (10 : Int) ^ 3 = 1000 := by norm_num
    unfold serverValueStr
    rw [e12, e9, e6, e3]
    rw [if_neg (by omega), if_neg (by omega), if_neg (by omega),
      if_neg (by omega)]
  · intro v h
    rw [cellNum, if_pos h]

/-- C2, witness for the amended theorem's general parts at concrete inputs. -/
theorem humanScale_amended_witness :
    serverValueStr 500 = toString (500 : Int)
  ∧ cellNum (-7) = toString (-7 : Int) :=
  ⟨humanScale_amended.1 500 (by decide) (by decide),
   humanScale_amended.2.2.2.2.2.1 (-7) (by decide)⟩

/-- An error recorded before `serverExecuteGo` runs is still recorded after. -/
theorem serverExecuteGo_err_isSome (proc : Nat → CallOutcome) :
    ∀ n i e, ((serverExecuteGo proc i n (some e)).2.1).isSome := by
  intro n
  induction n with
  | zero => intro i e; simp [serverExecuteGo]
  | succ m ih =>
      intro i e
      rw [serverExecuteGo]
      cases h : proc i with
      | ok v => simp
      | autoReconnect e2 => simpa using ih (i + 1) e2
      | opFailure e2 => simp

/-- Whenever at least one attempt is made and the result is absent, an error
has been recorded. -/
theorem serverExecuteGo_none_isSome (proc : Nat → CallOutcome) :
    ∀ n i le, 0 < n → (serverExecuteGo proc i n le).1 = none →
      ((serverExecuteGo proc i n le).2.1).isSome := by
  intro n i le hn
  match n, hn with
  | m + 1, _ =>
    rw [serverExecuteGo]
    cases h : proc i with
    | ok v => intro hc; simp at hc
    | autoReconnect e2 =>
        intro _
        simpa using serverExecuteGo_err_isSome proc m (i + 1) e2
    | opFailure e2 => intro _; simp

/-- A run of transient failures makes the loop use all its attempts and come
back empty-handed. -/
theorem serverExecuteGo_transient (proc : Nat → CallOutcome) :
    ∀ n i le, (∀ j, i ≤ j → j < i + n → ∃ e, proc j = .autoReconnect e) →
      (serverExecuteGo proc i n le).1 = none
      ∧ (serverExecuteGo proc i n le).2.2 = n := by
  intro n
  induction n with
  | zero => intro i le _; simp [serverExecuteGo]
  | succ m ih =>
      intro i le h
      obtain ⟨e, he⟩ := h i (Nat.le_refl i) (by omega)
      rw [serverExecuteGo, he]
      have := ih (i + 1) (some e) (fun j hj1 hj2 => h j (by omega) (by omega))
      simp only []
      exact ⟨this.1, by simp [this.2]⟩

/-- C5: the retry contract of `Server.__execute` (final revision).  A
procedure that keeps raising the transient `AutoReconnect` is attempted
exactly 10 times, after which the caller gets `None` with the error recorded;
a non-transient `OperationFailure` is not retried (one attempt, `None`,
error recorded); a first-try success is returned as-is; and whenever the
result is absent a recorded error is available via `lastError()` — the two
conditions the Datasource can raise are both absorbed, never re-raised. -/
theorem serverExecute_retry_contract :
    (∀ proc : Nat → CallOutcome,
        (∀ i, i < 10 → ∃ e, proc i = .autoReconnect e) →
        (serverExecute proc).1 = none
      ∧ ((serverExecute proc).2.1).isSome
      ∧ (serverExecute proc).2.2 = 10)
  ∧ (∀ proc e, proc 0 = .opFailure e → serverExecute proc = (none, some e, 1))
  ∧ (∀ proc v, proc 0 = .ok v → serverExecute proc = (some v, none, 1))
  ∧ (∀ proc, (serverExecute proc).1 = none →
      ((serverExecute proc).2.1).isSome) := by
  refine ⟨?_, ?_, ?_, ?_⟩
  · intro proc h
    have ht := serverExecuteGo_transient proc 10 0 none
      (fun j _ hj2 => h j (by omega))
    exact ⟨ht.1,
      serverExecuteGo_none_isSome proc 10 0 none (by omega) ht.1, ht.2⟩
  · intro proc e h
    simp [serverExecute, serverExecuteGo, h]
  · intro proc v h
    simp [serverExecute, serverExecuteGo, h]
  · intro proc h
    exact serverExecuteGo_none_isSome proc 10 0 none (by omega) h

/-- C5, witness: a procedure that always raises `AutoReconnect` is attempted
10 times and yields no result with an error recorded; one that raises
`OperationFailure` immediately is attempted once. -/
theorem serverExecute_retry_contract_witness :
    ((serverExecute fun _ => CallOutcome.autoReconnect 3).1 = none
      ∧ ((serverExecute fun _ => CallOutcome.autoReconnect 3).2.1).isSome
      ∧ (serverExecute fun _ => CallOutcome.autoReconnect 3).2.2 = 10)
  ∧ (serverExecute fun _ => CallOutcome.opFailure 5) = (none, some 5, 1) :=
  ⟨serverExecute_retry_contract.1 (fun _ => CallOutcome.autoReconnect 3)
      (fun _ _ => ⟨3, rfl⟩),
   serverExecute_retry_contract.2.1 (fun _ => CallOutcome.opFailure 5) 5 rfl⟩

/-- C6: the early-exit contract of `OperationBlock.batchKill`.  The killed
operations are exactly an initial segment of the rows; every killed row has a
numeric elapsed time at least the threshold; when the scan halts without an
exception before the end, the halting row's elapsed time is below the
threshold; and on the spec's scenario (durations 50, 30, 30, 10 with
threshold 25) exactly the first three operations are killed without error. -/
theorem batchKill_early_exit :
    (∀ (lines : List OpLine) (s : Int) (killed : List (String × String)),
        (batchKillGo lines s).1 = killed →
        killed = (lines.take killed.length).map (fun l => (l.server, l.opid))
      ∧ (∀ l ∈ lines.take killed.length, ∃ v, l.sec = some v ∧ s ≤ v)
      ∧ ((batchKillGo lines s).2 = none → killed.length < lines.length →
          ∃ l v, lines[killed.length]? = some l ∧ l.sec = some v ∧ v < s))
  ∧ (batchKillGo opsScenario 25).1 = [("s", "1"), ("s", "2"), ("s", "3")]
  ∧ (batchKillGo opsScenario 25).2 = none := by
  refine ⟨?_, by decide, by decide⟩
  intro lines
  induction lines with
  | nil =>
      intro s killed hk
      simp [batchKillGo] at hk
      subst hk
      refine ⟨by simp, by simp, ?_⟩
      intro _ hlt
      simp at hlt
  | cons l rest ih =>
      intro s killed hk
      rw [batchKillGo] at hk
      cases hsec : l.sec with
      | none =>
          rw [hsec] at hk
          simp at hk
          subst hk
          refine ⟨by simp, by simp, ?_⟩
          intro hnone
          rw [batchKillGo, hsec] at hnone
          simp at hnone
      | some v =>
          rw [hsec] at hk
          by_cases hv : v < s
          · simp only [hv, if_true, reduceIte] at hk
            subst hk
            refine ⟨by simp, by simp, ?_⟩
            intro _ _
            exact ⟨l, v, by simp, hsec, hv⟩
          · simp only [hv, if_false, reduceIte] at hk
            obtain ⟨h1, h2, h3⟩ := ih s (batchKillGo rest s).1 rfl
            subst hk
            refine ⟨?_, ?_, ?_⟩
            · simp only [List.length_cons, List.take_succ_cons, List.map_cons]
              rw [← h1]
            · simp only [List.length_cons, List.take_succ_cons]
              intro x hx
              cases hx with
              | head => exact ⟨v, hsec, le_of_not_lt hv⟩
              | tail _ hm => exact h2 x hm
            · intro hnone hlt
              have hnone2 : (batchKillGo rest s).2 = none := by
                rw [batchKillGo, hsec] at hnone
                simpa [hv] using hnone
              simp only [List.length_cons] at hlt ⊢
              have := h3 hnone2 (by omega)
              simpa using this

/-- C6, witness: on the scenario rows with threshold 25, the halting row (the
fourth, 10-second operation) is below the threshold. -/
theorem batchKill_early_exit_witness :
    ∃ l v, opsScenario[([("s", "1"), ("s", "2"), ("s", "3")] :
        List (String × String)).length]? = some l ∧ l.sec = some v ∧ v < 25 := by
  have h := batchKill_early_exit.1 opsScenario 25
    [("s", "1"), ("s", "2"), ("s", "3")] (by decide)
  exact h.2.2 (by decide) (by decide)

/-- C7: entering a server name that resolves to no configured server for the
`'k'` action crashes the iteration.  `OperationBlock.kill` calls
`server.killOperation(opid)` on the `None` returned by `__findServer`, raising
`AttributeError`, which nothing in `QueryScreen.action` catches — the loop
terminates instead of printing a one-line message.  By contrast the `'e'`
action's `explainQuery` guards its lookup (`if line and ...`) and fails
gracefully with no result. -/
theorem kill_unresolved_server_crash :
    opKill ["alpha"] (fun _ _ => true) "beta" "42" = .error .attributeError
  ∧ tick ["alpha"] [opLine42] (fun _ _ => true) (fun _ _ => true) none 1
      { firstKey := some 'k', pauseKey := 'z', ekInput := ["beta", "42"],
        ekKey := 'x', kInput := none } = .error .attributeError
  ∧ opExplain (fun _ _ => true) [opLine42] "beta" "42" = .ok none := by decide

/-- C9, counterexample.  The key that ends a pause is acted upon as a command
in the same tick: pressing `'p'` then `'k'` runs the kill flow on that very
tick, and pressing `'p'` then `'q'` makes the loop terminate. -/
theorem pause_claim_false :
    tick ["alpha"] [opLine42] (fun _ _ => true) (fun _ _ => true) none 1
      { firstKey := some 'p', pauseKey := 'k', ekInput := ["alpha", "42"],
        ekKey := 'x', kInput := none } =
      .ok { killedSingle := [("alpha", "42")], messages := [], batchKilled := [],
            finalKey := some 'x', reconnectBranch := false }
  ∧ tick ["alpha"] [] (fun _ _ => true) (fun _ _ => true) none 1
      { firstKey := some 'p', pauseKey := 'q', ekInput := [], ekKey := 'x',
        kInput := none } =
      .ok { killedSingle := [], messages := [], batchKilled := [],
            finalKey := some 'q', reconnectBranch := false } := by decide

/-- C9, amended.  After `'p'` the loop blocks for a key, and that key becomes
the current `button`: the iteration proceeds exactly as if the pause-ending
key had been the originally polled key, so `'q'`, `'e'`, `'k'` and `'K'` are
acted upon in the same tick. -/
theorem pause_amended :
    ∀ (servers : List String) (lines : List OpLine)
      (explainOk killOk : String → String → Bool) (auto : Option Int)
      (counter : Nat) (inp : TickInput),
      inp.firstKey = some 'p' →
      tick servers lines explainOk killOk auto counter inp =
        tick servers lines explainOk killOk auto counter
          { inp with firstKey := some inp.pauseKey } := by
  intro servers lines ex ki auto counter inp h
  rw [tick, tick]
  simp [h]

/-- C9, witness: the pause-equivalence applied to the `'p'`-then-`'q'` input. -/
theorem pause_amended_witness :
    tick ["alpha"] [] (fun _ _ => true) (fun _ _ => true) none 1
      { firstKey := some 'p', pauseKey := 'q', ekInput := [], ekKey := 'x',
        kInput := none } =
    tick ["alpha"] [] (fun _ _ => true) (fun _ _ => true) none 1
      { firstKey := some 'q', pauseKey := 'q', ekInput := [], ekKey := 'x',
        kInput := none } :=
  pause_amended ["alpha"] [] (fun _ _ => true) (fun _ _ => true) none 1
    { firstKey := some 'p', pauseKey := 'q', ekInput := [], ekKey := 'x',
      kInput := none } rfl

/-- C10, counterexample.  The sort key `line[4] or -1` maps a zero duration to
-1 exactly like a missing duration, and the sort is stable, so a row with no
duration that precedes a zero-duration row stays *above* it: not every
null-duration row sorts below every numeric-duration row. -/
theorem opSort_claim_false :
    opSort [opNullSec, opZeroSec] = [opNullSec, opZeroSec]
  ∧ opNullSec.sec = none
  ∧ opZeroSec.sec = some 0 := by decide

/-- C10, amended.  After the sort in `OperationBlock.reset`, the rows are in
descending order of `line[4] or -1` (a permutation of the input), where both a
`None` and a zero duration rank as -1; consequently every row with no
duration sits below every row with a *positive* duration, but it can sit
above a row whose duration is zero. -/
theorem opSort_amended :
    (∀ lines : List OpLine,
        (opSort lines).Sorted opGE ∧ (opSort lines).Perm lines)
  ∧ (∀ (lines : List OpLine) (i j : Fin (opSort lines).length) (v : Int),
        ((opSort lines).get i).sec = none →
        ((opSort lines).get j).sec = some v → 0 < v →
        (j : Nat) < (i : Nat)) := by
  constructor
  · intro lines
    exact ⟨List.sorted_insertionSort opGE lines,
      List.perm_insertionSort opGE lines⟩
  · intro lines i j v hi hj hv
    have hsorted : (opSort lines).Sorted opGE :=
      List.sorted_insertionSort opGE lines
    have hki : sortKey ((opSort lines).get i) = -1 := by
      unfold sortKey
      rw [hi]
    have hkj : sortKey ((opSort lines).get j) = v := by
      unfold sortKey
      rw [hj]
      have hvne : v ≠ 0 := by omega
      simp [hvne]
    rcases lt_trichotomy (i : Nat) (j : Nat) with hlt | heq | hgt
    · have hrel := hsorted.rel_get_of_lt (a := i) (b := j)
        (show i < j from hlt)
      unfold opGE at hrel
      rw [hki, hkj] at hrel
      omega
    · have hij : i = j := Fin.ext heq
      rw [hij, hj] at hi
      simp at hi
    · exact hgt

/-- C10, witness: sorting a null-duration row with a five-second row puts the
five-second row first and the null row last. -/
theorem opSort_amended_witness :
    (opSort [opNullSec, opPosSec]).Sorted opGE
  ∧ ((0 : Nat) < (1 : Nat)) :=
  ⟨(opSort_amended.1 [opNullSec, opPosSec]).1,
   opSort_amended.2 [opNullSec, opPosSec] ⟨1, by decide⟩ ⟨0, by decide⟩ 5
     (by decide) (by decide) (by decide)⟩
